import Mathlib

/-!
Verification of `scripts/build_attrs.py` (places-pipeline).

This file shallowly embeds the functions of the script — `pad_geoid`,
`parse_value`, `fetch_json`, `load_aland_by_geoid`, `write_json`'s
deterministic serialization policy, the inline density derivation and the
per-state row loop of `main` — as executable Lean definitions, and proves
the specification claims about them.

Modelling conventions:
* Python strings are Lean `String`s; `str.strip`, `str.upper`, `str.zfill`
  are modelled by `pystrip`, `pyupper`, `zfill` below.
* Python `None` is `Option.none`; a value that may be a Python exception is
  an `Except PyErr _`.
* Python floats are modelled by `PyFloat`: a finite rational, `inf`,
  `-inf` or `nan`.  Finite values are exact rationals (IEEE rounding is not
  modelled; no claim in scope depends on it).  `float(s)` is `pyFloat`,
  covering signed decimal literals with optional fraction and exponent and
  the case-insensitive special spellings `inf`/`infinity`/`nan`.
* JSON scalar cell values are `PyVal`: int, float or str.
-/

/-- Python exceptions that the script's code paths can raise or catch. -/
inductive PyErr where
  | valueError
  | overflowError
  | typeError
  deriving DecidableEq, Repr

/-- Model of a Python `float` value: exact finite rational, or a special. -/
inductive PyFloat where
  | finite (q : ℚ)
  | inf
  | neginf
  | nan
  deriving DecidableEq, Repr

/-- Model of a scalar Python/JSON value as it occurs in the script's data
(rows, records, GeoJSON properties). -/
inductive PyVal where
  | intV (n : ℤ)
  | floatV (f : PyFloat)
  | strV (s : String)
  deriving DecidableEq, Repr

/-- Python `str.strip()` (no argument): remove leading and trailing
whitespace characters. -/
def pystrip (s : String) : String :=
  String.mk (((s.toList.dropWhile Char.isWhitespace).reverse.dropWhile
    Char.isWhitespace).reverse)

/-- Python `str.upper()` (ASCII fragment, which is all the script compares
against: `"NULL"`, `"N/A"`). -/
def pyupper (s : String) : String :=
  String.mk (s.toList.map Char.toUpper)

/-- Python `str.zfill(width)`: left-pad with `'0'` to `width`, keeping a
leading `'+'`/`'-'` sign in front of the padding; a string already at least
`width` long is returned unchanged. -/
def zfill (s : String) (width : Nat) : String :=
  let cs := s.toList
  if width ≤ cs.length then s
  else
    match cs with
    | [] => String.mk (List.replicate width '0')
    | c :: rest =>
      if c = '+' ∨ c = '-' then
        String.mk (c :: (List.replicate (width - cs.length) '0' ++ rest))
      else
        String.mk (List.replicate (width - cs.length) '0' ++ cs)

/-- `pad_geoid` from the script: `statefp.zfill(2) + placefp.zfill(5)`. -/
def pad_geoid (statefp placefp : String) : String :=
  zfill statefp 2 ++ zfill placefp 5

/-- Numeric value of a list of decimal digit characters. -/
def natOfDigits (ds : List Char) : Nat :=
  ds.foldl (fun a c => a * 10 + (c.toNat - 48)) 0

/-- Split a character list into its leading run of decimal digits and the
rest. -/
def takeDigits (cs : List Char) : List Char × List Char :=
  (cs.takeWhile Char.isDigit, cs.dropWhile Char.isDigit)

/-- `10^e` as a rational, for an integer exponent `e`. -/
def pow10 (e : ℤ) : ℚ :=
  if 0 ≤ e then ((10 ^ e.toNat : ℤ) : ℚ) else 1 / ((10 ^ (-e).toNat : ℤ) : ℚ)

/-- The rational value `m * 10^e` of a decimal literal in scientific form. -/
def ratOfSci (m : ℤ) (e : ℤ) : ℚ :=
  (m : ℚ) * pow10 e

/-- Parse the optional exponent tail of a float literal (`e`/`E`, optional
sign, at least one digit, nothing after), adjusting the power of ten `e`
of the mantissa `m`. -/
def parseExpTail (cs : List Char) (m : ℤ) (e : ℤ) : Option (ℤ × ℤ) :=
  match cs with
  | [] => some (m, e)
  | c :: rest =>
    if c = 'e' ∨ c = 'E' then
      let (esgn, r) : ℤ × List Char :=
        match rest with
        | '+' :: r' => (1, r')
        | '-' :: r' => (-1, r')
        | r' => (1, r')
      let (ds, r2) := takeDigits r
      if ds = [] ∨ r2 ≠ [] then none
      else some (m, e + esgn * (natOfDigits ds : ℤ))
    else none

/-- Parse an unsigned decimal float literal — digits, optional `.` and
fraction digits (at least one digit overall), optional exponent — into
mantissa and power of ten. -/
def parseDecimal (cs : List Char) : Option (ℤ × ℤ) :=
  let (ip, r1) := takeDigits cs
  match r1 with
  | '.' :: r2 =>
    let (fp, r3) := takeDigits r2
    if ip = [] ∧ fp = [] then none
    else parseExpTail r3
      ((natOfDigits ip : ℤ) * 10 ^ fp.length + (natOfDigits fp : ℤ))
      (-(fp.length : ℤ))
  | _ =>
    if ip = [] then none
    else parseExpTail r1 (natOfDigits ip) 0

/-- Python `float(s)` on an already-stripped string: optional sign, then a
decimal literal or one of the case-insensitive specials `inf`, `infinity`,
`nan`; `none` models a `ValueError`. -/
def pyFloat (s : String) : Option PyFloat :=
  let (neg, rest) : Bool × List Char :=
    match s.toList with
    | '+' :: r => (false, r)
    | '-' :: r => (true, r)
    | r => (false, r)
  let low := rest.map Char.toLower
  if low = "inf".toList ∨ low = "infinity".toList then
    some (if neg then PyFloat.neginf else PyFloat.inf)
  else if low = "nan".toList then
    some PyFloat.nan
  else
    match parseDecimal rest with
    | some (m, e) => some (PyFloat.finite (ratOfSci (if neg then -m else m) e))
    | none => none

/-- Truncation toward zero, the semantics of Python `int()` on a finite
float. -/
def ratTrunc (q : ℚ) : ℤ :=
  if 0 ≤ q then ⌊q⌋ else ⌈q⌉

/-- Python `int(f)` on a float: truncates a finite value; raises
`OverflowError` on an infinity and `ValueError` on `nan`. -/
def pyIntOfFloat : PyFloat → Except PyErr ℤ
  | PyFloat.finite q => Except.ok (ratTrunc q)
  | PyFloat.inf => Except.error PyErr.overflowError
  | PyFloat.neginf => Except.error PyErr.overflowError
  | PyFloat.nan => Except.error PyErr.valueError

/-- `parse_value(raw, vtype)` from the script.  `raw` is `none` for a JSON
null cell.  The result is `Except` because the `try` block catches only
`ValueError`: for `vtype = "int"`, `int(float(s))` on an infinite float
raises `OverflowError`, which escapes. -/
def parse_value (raw : Option String) (vtype : String) :
    Except PyErr (Option PyVal) :=
  match raw with
  | none => Except.ok none
  | some r =>
    let s := pystrip r
    if s = "" ∨ pyupper s = "NULL" ∨ pyupper s = "N/A" then
      Except.ok none
    else if vtype = "int" then
      match pyFloat s with
      | none => Except.ok none
      | some f =>
        match pyIntOfFloat f with
        | Except.ok n => Except.ok (some (PyVal.intV n))
        | Except.error PyErr.valueError => Except.ok none
        | Except.error e => Except.error e
    else if vtype = "float" then
      match pyFloat s with
      | none => Except.ok none
      | some f => Except.ok (some (PyVal.floatV f))
    else
      Except.ok (some (PyVal.strV s))

/-! ## Deterministic JSON serialization (`write_json`) -/

/-- JSON values as the script writes them (`json.dump(obj, ...)`).  Objects
carry their entries in Python-dict insertion order; the serializer sorts
them (`sort_keys=True`). -/
inductive J where
  | null
  | bool (b : Bool)
  | int (n : ℤ)
  | str (s : String)
  | arr (xs : List J)
  | obj (kvs : List (String × J))

/-- Lowercase hexadecimal digit. -/
def hexDigit (n : Nat) : Char :=
  if n < 10 then Char.ofNat (48 + n) else Char.ofNat (87 + n)

/-- JSON escaping of one character, as Python's `json` module emits it with
`ensure_ascii=False`. -/
def escChar (c : Char) : List Char :=
  if c = '"' then ['\\', '"']
  else if c = '\\' then ['\\', '\\']
  else if c = '\n' then ['\\', 'n']
  else if c = '\r' then ['\\', 'r']
  else if c = '\t' then ['\\', 't']
  else if c = Char.ofNat 8 then ['\\', 'b']
  else if c = Char.ofNat 12 then ['\\', 'f']
  else if c.toNat < 32 then
    ['\\', 'u', '0', '0', hexDigit (c.toNat / 16), hexDigit (c.toNat % 16)]
  else [c]

/-- Serialize a JSON string with quotes and escapes. -/
def serStr (s : String) : String :=
  "\"" ++ String.mk (s.toList.map escChar).flatten ++ "\""

/-- Insert a key-value pair into a list sorted by key (stable insertion
sort step). -/
def insortKV (p : String × String) : List (String × String) → List (String × String)
  | [] => [p]
  | q :: qs => if p.1 ≤ q.1 then p :: q :: qs else q :: insortKV p qs

/-- Sort rendered object entries by key — the `sort_keys=True` policy of
`write_json`. -/
def sortKV : List (String × String) → List (String × String)
  | [] => []
  | p :: ps => insortKV p (sortKV ps)

mutual
/-- Deterministic serialization of a JSON value, following `write_json`:
`separators=(",", ":")` (compact, no whitespace) and `sort_keys=True`
(object entries emitted in sorted key order, regardless of insertion
order). -/
def serialize : J → String
  | J.null => "null"
  | J.bool true => "true"
  | J.bool false => "false"
  | J.int n => toString n
  | J.str s => serStr s
  | J.arr xs => "[" ++ String.intercalate "," (serList xs) ++ "]"
  | J.obj kvs =>
    "\x7b" ++ String.intercalate ","
      ((sortKV (serObj kvs)).map (fun p => serStr p.1 ++ ":" ++ p.2)) ++ "\x7d"

/-- Serialize each element of a JSON array. -/
def serList : List J → List String
  | [] => []
  | x :: xs => serialize x :: serList xs

/-- Render each object entry's value, keeping insertion order (sorting
happens afterwards in `serialize`). -/
def serObj : List (String × J) → List (String × String)
  | [] => []
  | (k, v) :: kvs => (k, serialize v) :: serObj kvs
end

/-! ## `fetch_json`: bounded retry with exponential backoff -/

/-- Outcome of the retry loop of `fetch_json`: the payload if some attempt
succeeded, the sleeps performed (one after every failed attempt, in
seconds), the last exception message, and the number of attempts made.
`resp i` is the environment: what attempt number `i` returns —
`Except.error` models exactly the caught exception classes (`HTTPError`,
`URLError`, `TimeoutError`, `json.JSONDecodeError`), carrying `str(e)`. -/
structure FetchOut (α : Type) where
  result : Option α
  sleeps : List ℚ
  lastErr : Option String
  attempts : ℕ
  deriving Repr

/-- The `for i in range(retries)` loop body of `fetch_json`, starting at
attempt `i` with `fuel` iterations left. -/
def fetchAux {α : Type} (resp : ℕ → Except String α) (base : ℚ) :
    ℕ → ℕ → FetchOut α
  | _, 0 => ⟨none, [], none, 0⟩
  | i, fuel + 1 =>
    match resp i with
    | Except.ok a => ⟨some a, [], none, 1⟩
    | Except.error e =>
      let out := fetchAux resp base (i + 1) fuel
      ⟨out.result, base * 2 ^ i :: out.sleeps,
        (out.lastErr).getD e |> some, out.attempts + 1⟩

/-- Python `f"...{last_err}"` on an `Optional` exception. -/
def pyShowOpt : Option String → String
  | none => "None"
  | some e => e

/-- `fetch_json(url, retries, base_sleep_s)` from the script, returning the
result (payload or the fatal `RuntimeError` message), the backoff sleeps
performed, and the number of attempts. -/
def fetch_json {α : Type} (url : String) (resp : ℕ → Except String α)
    (retries : ℕ) (base : ℚ) : Except String α × List ℚ × ℕ :=
  let out := fetchAux resp base 0 retries
  match out.result with
  | some a => (Except.ok a, out.sleeps, out.attempts)
  | none =>
    (Except.error ("Failed to fetch after " ++ toString retries ++
      " tries:\n" ++ url ++ "\nLast error: " ++ pyShowOpt out.lastErr),
      out.sleeps, out.attempts)

/-! ## Density derivation (inline in `main`, lines 249-258) -/

/-- `M2_PER_SQMI = 2_589_988.110336` (square meters per square mile). -/
def M2_PER_SQMI : ℚ := 2589988110336 / 1000000

/-- Round half to even (Python's `round` on exact values; IEEE
representation error of the Python `float` arguments is not modelled). -/
def roundHalfEven (q : ℚ) : ℤ :=
  let f := ⌊q⌋
  let r := q - f
  if r < 1 / 2 then f
  else if 1 / 2 < r then f + 1
  else if Even f then f else f + 1

/-- Python `round(q, nd)` on a finite value. -/
def pyRound (q : ℚ) (nd : ℤ) : ℚ :=
  (roundHalfEven (q * pow10 nd) : ℚ) / pow10 nd

/-- Python `round(f, nd)` on a float: specials are returned unchanged. -/
def pyRoundF (f : PyFloat) (nd : ℤ) : PyFloat :=
  match f with
  | PyFloat.finite q => PyFloat.finite (pyRound q nd)
  | other => other

/-- Python `float(x)` on a scalar value (`float(pop)` in the density
step). A non-numeric string raises `ValueError`, which `main` does not
catch. -/
def pyFloatOfVal : PyVal → Except PyErr PyFloat
  | PyVal.intV n => Except.ok (PyFloat.finite n)
  | PyVal.floatV f => Except.ok f
  | PyVal.strV s =>
    match pyFloat (pystrip s) with
    | some f => Except.ok f
    | none => Except.error PyErr.valueError

/-- Division of a Python float by a positive finite rational (the
`float(pop) / land_sqmi` step; `land_sqmi` is finite and positive there). -/
def pyDivByPosRat (f : PyFloat) (d : ℚ) : PyFloat :=
  match f with
  | PyFloat.finite q => PyFloat.finite (q / d)
  | other => other

/-- The density block of `main`:
`dens = None; if pop is not None and aland_m2 and aland_m2 > 0:
land_sqmi = aland_m2 / M2_PER_SQMI; if land_sqmi > 0:
dens = round(float(pop) / land_sqmi, int(density_round))`. -/
def derive_density (pop : Option PyVal) (aland_m2 : Option ℤ)
    (density_round : ℤ) : Except PyErr (Option PyVal) :=
  match pop, aland_m2 with
  | some p, some a =>
    if a ≠ 0 ∧ 0 < a then
      let land_sqmi : ℚ := (a : ℚ) / M2_PER_SQMI
      if 0 < land_sqmi then
        match pyFloatOfVal p with
        | Except.ok pf =>
          Except.ok (some (PyVal.floatV (pyRoundF (pyDivByPosRat pf land_sqmi)
            density_round)))
        | Except.error e => Except.error e
      else Except.ok none
    else Except.ok none
  | _, _ => Except.ok none

/-! ## Area Index Loader (`load_aland_by_geoid`) -/

/-- Python truthiness of a scalar value (`props.get("GEOID") or ""`). -/
def pyTruthy : PyVal → Bool
  | PyVal.intV n => n ≠ 0
  | PyVal.floatV (PyFloat.finite q) => q ≠ 0
  | PyVal.floatV _ => true
  | PyVal.strV s => s ≠ ""

/-- Python `str()` of a float.  Finite integral values render as
`"<n>.0"`; other finite values are rendered as decimal digits when the
denominator is a power of ten (a defined stand-in for repr's
shortest-roundtrip form, which an exact-rational model cannot reproduce);
specials render as `inf`/`-inf`/`nan`. -/
def pyStrOfFloat : PyFloat → String
  | PyFloat.finite q => if q.den = 1 then toString q.num ++ ".0" else toString q
  | PyFloat.inf => "inf"
  | PyFloat.neginf => "-inf"
  | PyFloat.nan => "nan"

/-- Python `str()` of a scalar value. -/
def pyStr : PyVal → String
  | PyVal.intV n => toString n
  | PyVal.floatV f => pyStrOfFloat f
  | PyVal.strV s => s

/-- Python `int(s)` on a string: strips whitespace, optional sign, then
decimal digits only; anything else raises `ValueError` (`none`). -/
def pyIntOfString (s : String) : Option ℤ :=
  let t := pystrip s
  match t.toList with
  | '+' :: ds =>
    if ds ≠ [] ∧ ds.all Char.isDigit then some (natOfDigits ds) else none
  | '-' :: ds =>
    if ds ≠ [] ∧ ds.all Char.isDigit then some (-(natOfDigits ds : ℤ)) else none
  | ds =>
    if ds ≠ [] ∧ ds.all Char.isDigit then some (natOfDigits ds) else none

/-- Python `int(x)` on a scalar value. -/
def pyInt : PyVal → Except PyErr ℤ
  | PyVal.intV n => Except.ok n
  | PyVal.floatV f => pyIntOfFloat f
  | PyVal.strV s =>
    match pyIntOfString s with
    | some n => Except.ok n
    | none => Except.error PyErr.valueError

/-- One GeoJSON feature, reduced to the two properties the loader reads:
`props.get("GEOID")` and `props.get("ALAND")` (`none` models an absent
property or JSON null). -/
structure Feature where
  geoidProp : Option PyVal
  alandProp : Option PyVal

/-- `str(props.get("GEOID") or "").strip()`. -/
def featureGeoid (f : Feature) : String :=
  pystrip (match f.geoidProp with
    | some v => if pyTruthy v then pyStr v else ""
    | none => "")

/-- The per-feature body of `load_aland_by_geoid`: `Except.ok none` models
`continue` (feature skipped), `Except.ok (some (geoid, n))` models
`out[geoid] = n`.  `int(aland)` is tried first; `ValueError`/`TypeError`
fall back to `int(float(str(aland)))` whose own failures are swallowed by
`except Exception`; an `OverflowError` from the first `int()` call is not
caught. -/
def loadFeature (f : Feature) : Except PyErr (Option (String × ℤ)) :=
  let geoid := featureGeoid f
  match f.alandProp with
  | none => Except.ok none
  | some av =>
    if geoid.length ≠ 7 then Except.ok none
    else
      match pyInt av with
      | Except.ok n => Except.ok (some (geoid, n))
      | Except.error PyErr.valueError =>
        Except.ok (loadFallback geoid av)
      | Except.error PyErr.typeError =>
        Except.ok (loadFallback geoid av)
      | Except.error e => Except.error e
where
  /-- `int(float(str(aland)))` under `except Exception: continue`. -/
  loadFallback (geoid : String) (av : PyVal) : Option (String × ℤ) :=
    match pyFloat (pystrip (pyStr av)) with
    | some fl =>
      match pyIntOfFloat fl with
      | Except.ok n => some (geoid, n)
      | Except.error _ => none
    | none => none

/-- Insert into a Python dict modelled as an association list: an existing
key keeps its position and gets the new value, a new key is appended. -/
def upsert {β : Type} : List (String × β) → String → β → List (String × β)
  | [], k, v => [(k, v)]
  | (k', v') :: rest, k, v =>
    if k' = k then (k, v) :: rest else (k', v') :: upsert rest k v

/-- `load_aland_by_geoid` over the feature list of the parsed GeoJSON
document (path existence and JSON parsing are I/O preconditions outside
this model). -/
def load_aland_by_geoid (features : List Feature) :
    Except PyErr (List (String × ℤ)) :=
  features.foldlM
    (fun out f =>
      match loadFeature f with
      | Except.ok none => Except.ok out
      | Except.ok (some (g, n)) => Except.ok (upsert out g n)
      | Except.error e => Except.error e)
    []

/-! ## The per-state row loop of `main` (lines 233-275) -/

/-- One schema entry from `cfg["fields"]`: `var`, `key` and the optional
`type` (read by the driver as `f.get("type", "float")`). -/
structure SchemaField where
  var : String
  key : String
  vtype : Option String

/-- One data row, reduced to what the loop reads: `r[idx["state"]]`,
`r[idx["place"]]`, and the raw cell for each schema variable
(`r[idx[f["var"]]]`); a `none` cell models a JSON null. -/
structure Row where
  st : String
  pl : String
  cell : String → Option String

/-- A Place Attribute Record: output key to typed value or null, in
insertion order. -/
def Rec : Type := List (String × Option PyVal)

/-- `rec.get("pop_total")`: `none` for an absent key or a null value. -/
def lookupRec (rc : Rec) (k : String) : Option PyVal :=
  (List.lookup k rc).join

/-- The schema loop of `main`:
`for f in fields: rec[f["key"]] = parse_value(r[idx[f["var"]]], f.get("type", "float"))`. -/
def buildBaseRec (fields : List SchemaField) (r : Row) : Except PyErr Rec :=
  fields.foldlM
    (fun rc f =>
      match parse_value (r.cell f.var) (f.vtype.getD "float") with
      | Except.ok v => Except.ok (upsert rc f.key v)
      | Except.error e => Except.error e)
    []

/-- Build the full record for one accepted row: the schema fields, then,
when density is enabled, `rec[density_key] = dens`. -/
def buildRecord (fields : List SchemaField) (cd : Bool) (dk : String)
    (dr : ℤ) (aland : String → Option ℤ) (geoid : String) (r : Row) :
    Except PyErr Rec :=
  match buildBaseRec fields r with
  | Except.error e => Except.error e
  | Except.ok r0 =>
    if cd then
      match derive_density (lookupRec r0 "pop_total") (aland geoid) dr with
      | Except.ok dens => Except.ok (upsert r0 dk dens)
      | Except.error e => Except.error e
    else Except.ok r0

/-- Per-state accumulator: the output document, `written`, and the
`missing_geoid` rejection counter. -/
structure StateAcc where
  out : List (String × Rec)
  written : ℕ
  missing_geoid : ℕ

/-- The body of `for r in data_rows` in `main`: build the GEOID, reject and
count a row whose GEOID length is not 7, otherwise build the record and
insert it (`out[geoid] = rec; written += 1`). -/
def processRow (fields : List SchemaField) (cd : Bool) (dk : String)
    (dr : ℤ) (aland : String → Option ℤ) (acc : StateAcc) (r : Row) :
    Except PyErr StateAcc :=
  let geoid := pad_geoid r.st r.pl
  if geoid.length ≠ 7 then
    Except.ok ⟨acc.out, acc.written, acc.missing_geoid + 1⟩
  else
    match buildRecord fields cd dk dr aland geoid r with
    | Except.ok rc =>
      Except.ok ⟨upsert acc.out geoid rc, acc.written + 1, acc.missing_geoid⟩
    | Except.error e => Except.error e

/-- The whole per-state row loop, starting from `out = {}`, `written = 0`
and a zero rejection counter. -/
def processRows (fields : List SchemaField) (cd : Bool) (dk : String)
    (dr : ℤ) (aland : String → Option ℤ) (rows : List Row) :
    Except PyErr StateAcc :=
  rows.foldlM (processRow fields cd dk dr aland) ⟨[], 0, 0⟩

/-! ## Areas configuration and the manifest's `schema.derived_fields` -/

/-- The optional `areas` block of `config.json`; every key is optional
(`areas_cfg.get(...)`). -/
structure AreasCfg where
  areaindex_geojson : Option String
  density_output_key : Option String
  density_round : Option ℤ

/-- `cfg.get("areas", {}) or {}`: an absent block behaves as an empty
dict. -/
def areasOf (areas : Option AreasCfg) : AreasCfg :=
  areas.getD ⟨none, none, none⟩

/-- `areas_cfg.get("density_output_key", "pop_density_sqmi")`. -/
def densityKeyOf (areas : Option AreasCfg) : String :=
  (areasOf areas).density_output_key.getD "pop_density_sqmi"

/-- `compute_density = bool(areaindex_geojson)`: enabled exactly when the
area-index path is present and a non-empty string. -/
def computeDensity (areas : Option AreasCfg) : Bool :=
  match (areasOf areas).areaindex_geojson with
  | some s => s ≠ ""
  | none => false

/-- One derived-field descriptor of the manifest's
`schema.derived_fields`. -/
structure DerivedField where
  key : String
  dtype : String
  units : String
  formula : String
  deriving DecidableEq

/-- The `derived_fields` entry of the manifest's `schema` block: one
density descriptor if `compute_density`, else the empty list. -/
def derivedFields (areas : Option AreasCfg) : List DerivedField :=
  if computeDensity areas then
    [⟨densityKeyOf areas, "float", "people/sqmi",
      "pop_total / (ALAND_m2 / 2589988.110336)"⟩]
  else []

/-- The GEOIDs of the rows the loop accepts (those whose built GEOID has
length exactly 7), in order and with multiplicity. -/
def acceptedGeoids (rows : List Row) : List String :=
  (rows.filter (fun r => (pad_geoid r.st r.pl).length == 7)).map
    (fun r => pad_geoid r.st r.pl)

/-! # Theorems -/

/-- **C4** — For every declared type, `parse_value` maps a null input, an
empty-or-whitespace-only string, and the null sentinels `"null"`/`"N/A"`
in any letter case to null; and for declared type `int` it parses the raw
string as a float first and truncates toward zero, so `"123.0"` coerces to
the integer `123`. -/
theorem parse_value_null_and_int_policy :
    (∀ vtype, parse_value none vtype = Except.ok none) ∧
    (∀ s vtype,
      (pystrip s = "" ∨ pyupper (pystrip s) = "NULL" ∨
        pyupper (pystrip s) = "N/A") →
      parse_value (some s) vtype = Except.ok none) ∧
    (∀ s q,
      ¬(pystrip s = "" ∨ pyupper (pystrip s) = "NULL" ∨
        pyupper (pystrip s) = "N/A") →
      pyFloat (pystrip s) = some (PyFloat.finite q) →
      parse_value (some s) "int" = Except.ok (some (PyVal.intV (ratTrunc q)))) ∧
    parse_value (some "123.0") "int" = Except.ok (some (PyVal.intV 123)) := by
  have key : ∀ s q,
      ¬(pystrip s = "" ∨ pyupper (pystrip s) = "NULL" ∨
        pyupper (pystrip s) = "N/A") →
      pyFloat (pystrip s) = some (PyFloat.finite q) →
      parse_value (some s) "int" =
        Except.ok (some (PyVal.intV (ratTrunc q))) := by
    intro s q h hq
    simp only [parse_value]
    rw [if_neg h, if_pos trivial, hq]
    rfl
  refine ⟨fun vtype => rfl, fun s vtype h => ?_, key, ?_⟩
  · simp only [parse_value]
    rw [if_pos h]
  · have h := key "123.0" (ratOfSci 1230 (-1)) (by decide) rfl
    rw [h]
    have : ratTrunc (ratOfSci 1230 (-1)) = 123 := by
      norm_num [ratTrunc, ratOfSci, pow10]
    rw [this]

/-- Witness for C4 at concrete inputs: `" NuLl "` is a null sentinel for
type `int`, and `"123.9"` truncates to `123`. -/
theorem parse_value_null_and_int_policy_witness :
    parse_value (some " NuLl ") "int" = Except.ok none ∧
    parse_value (some "123.9") "int" = Except.ok (some (PyVal.intV 123)) := by
  constructor
  · exact parse_value_null_and_int_policy.2.1 " NuLl " "int" (by decide)
  · have h := parse_value_null_and_int_policy.2.2.1 "123.9" (ratOfSci 1239 (-1))
      (by decide) rfl
    rw [h]
    have : ratTrunc (ratOfSci 1239 (-1)) = 123 := by
      norm_num [ratTrunc, ratOfSci, pow10]
    rw [this]

/-- **C5** — Contrary to the claim that the coercer is total and never
raises, `parse_value("inf", "int")` raises an uncaught `OverflowError`:
`float("inf")` succeeds, `int(·)` on an infinity raises `OverflowError`,
and the `try` block catches only `ValueError`.  Any such cell aborts the
whole run. -/
theorem parse_value_raises_on_infinity :
    parse_value (some "inf") "int" = Except.error PyErr.overflowError ∧
    parse_value (some "-Infinity") "int" = Except.error PyErr.overflowError := by
  exact ⟨rfl, rfl⟩

/-- **C6 counterexample** — the claim says a schema field with no declared
type is coerced as `string` (trimmed raw passed through).  On the field
`{var: "X", key: "x"}` (no `type`) and a raw cell `"abc"`, the driver
produces null — `f.get("type", "float")` defaults to `"float"` and
`float("abc")` fails — not the pass-through string `"abc"`. -/
theorem missing_type_not_string_counterexample :
    buildBaseRec [⟨"X", "x", none⟩]
      ⟨"06", "44000", fun _ => some "abc"⟩ =
      Except.ok [("x", none)] ∧
    some (PyVal.strV "abc") ≠ (none : Option PyVal) := by
  refine ⟨rfl, fun h => ?_⟩
  cases h

/-- **C6 amended** — a schema field entry that carries no declared type is
coerced by the driver with declared type `float` (the driver's default in
`f.get("type", "float")`), not `string`; the trimmed raw string passes
through unchanged only for declared types other than `int` and `float`. -/
theorem missing_type_coerced_as_float :
    (∀ (f : SchemaField) (raw : Option String), f.vtype = none →
      parse_value raw (f.vtype.getD "float") = parse_value raw "float") ∧
    (∀ (s t : String), t ≠ "int" → t ≠ "float" →
      ¬(pystrip s = "" ∨ pyupper (pystrip s) = "NULL" ∨
        pyupper (pystrip s) = "N/A") →
      parse_value (some s) t = Except.ok (some (PyVal.strV (pystrip s)))) := by
  constructor
  · intro f raw h
    rw [h]
    rfl
  · intro s t hint hfloat h
    simp only [parse_value]
    rw [if_neg h, if_neg hint, if_neg hfloat]

/-- Witness for the amended C6: the untyped field coerces `"1.5"` as a
float (value `1.5`), and a `"string"`-typed field passes `"007"` through
unchanged. -/
theorem missing_type_coerced_as_float_witness :
    parse_value (some "1.5") ((⟨"X", "x", none⟩ : SchemaField).vtype.getD "float") =
      parse_value (some "1.5") "float" ∧
    parse_value (some "007") "string" = Except.ok (some (PyVal.strV "007")) := by
  constructor
  · exact missing_type_coerced_as_float.1 ⟨"X", "x", none⟩ (some "1.5") rfl
  · have h := missing_type_coerced_as_float.2 "007" "string"
      (by decide) (by decide) (by decide)
    simpa using h

/-- Helper: when every attempt in the window fails, the retry loop sleeps
`base * 2^j` after attempt `j`, ends with the last error, and makes
exactly `fuel` attempts. -/
theorem fetchAux_all_fail {α : Type} (resp : ℕ → Except String α) (base : ℚ)
    (e : ℕ → String) :
    ∀ (fuel i : ℕ), (∀ j, j < fuel → resp (i + j) = Except.error (e (i + j))) →
      fetchAux resp base i fuel =
        ⟨none, (List.range' i fuel).map (fun j => base * 2 ^ j),
          if fuel = 0 then none else some (e (i + fuel - 1)), fuel⟩ := by
  intro fuel
  induction fuel with
  | zero => intro i h; simp [fetchAux]
  | succ n ih =>
    intro i h
    have h0 : resp i = Except.error (e i) := by simpa using h 0 (Nat.succ_pos n)
    have hrest : ∀ j, j < n → resp (i + 1 + j) = Except.error (e (i + 1 + j)) := by
      intro j hj
      have := h (j + 1) (by omega)
      simpa [Nat.add_assoc, Nat.add_comm 1 j] using this
    simp only [fetchAux, h0]
    rw [ih (i + 1) hrest]
    have hle : some ((if n = 0 then (none : Option String)
        else some (e (i + 1 + n - 1))).getD (e i)) =
        (if n + 1 = 0 then (none : Option String)
          else some (e (i + (n + 1) - 1))) := by
      by_cases hn : n = 0
      · subst hn
        simp
      · have harg : i + 1 + n - 1 = i + (n + 1) - 1 := by omega
        rw [if_neg hn, if_neg (Nat.succ_ne_zero n), Option.getD_some, harg]
    simp only [List.range']
    rw [List.map_cons]
    simp only [FetchOut.mk.injEq]
    exact ⟨trivial, trivial, by simpa using hle, trivial⟩

/-- Helper: the retry loop makes at most `fuel` attempts. -/
theorem fetchAux_attempts_le {α : Type} (resp : ℕ → Except String α) (base : ℚ) :
    ∀ (fuel i : ℕ), (fetchAux resp base i fuel).attempts ≤ fuel := by
  intro fuel
  induction fuel with
  | zero => intro i; simp [fetchAux]
  | succ n ih =>
    intro i
    simp only [fetchAux]
    cases resp i with
    | ok a => simp
    | error e =>
      simp only []
      exact Nat.succ_le_succ (ih (i + 1))

/-- **C3** — `fetch_json` attempts the request at most `retries` times
(default 6); after failed attempt `i` (counting from 0) it sleeps
`base_sleep_s * 2^i` seconds (1, 2, 4, 8, 16, 32 at the defaults); and if
every attempt fails with a caught error (network failure, HTTP error,
timeout, malformed JSON), it raises a fatal `RuntimeError` whose message
contains the requested URL and the last underlying error. -/
theorem fetch_json_retry_policy {α : Type} (url : String)
    (resp : ℕ → Except String α) (retries : ℕ) (base : ℚ) :
    (fetch_json url resp retries base).2.2 ≤ retries ∧
    (∀ e : ℕ → String, (∀ j, j < retries → resp j = Except.error (e j)) →
      0 < retries →
      fetch_json url resp retries base =
        (Except.error ("Failed to fetch after " ++ toString retries ++
          " tries:\n" ++ url ++ "\nLast error: " ++ e (retries - 1)),
         (List.range retries).map (fun i => base * 2 ^ i), retries)) := by
  constructor
  · have h := fetchAux_attempts_le resp base retries 0
    unfold fetch_json
    cases hres : (fetchAux resp base 0 retries).result <;> simp [hres] <;> exact h
  · intro e he hpos
    have hall := fetchAux_all_fail resp base e retries 0
      (fun j hj => by simpa using he j hj)
    unfold fetch_json
    rw [hall]
    have h0 : ¬(retries = 0) := by omega
    simp only [if_neg h0]
    simp only [pyShowOpt, Nat.zero_add, List.range_eq_range']

/-- Witness for C3 at the default configuration (6 retries, 1s base): all
attempts failing yields the fatal message with the URL and last error, and
the six backoff sleeps 1, 2, 4, 8, 16, 32 seconds. -/
theorem fetch_json_retry_policy_witness :
    fetch_json "https://api.census.gov/data/2024/acs/acs5/profile"
      (fun _ => (Except.error "timed out" : Except String ℕ)) 6 1 =
      (Except.error ("Failed to fetch after 6 tries:\nhttps://api.census.gov/data/2024/acs/acs5/profile\nLast error: timed out"),
       [1, 2, 4, 8, 16, 32], 6) ∧ (0 : ℕ) < 6 := by
  refine ⟨?_, by decide⟩
  have h := (fetch_json_retry_policy "https://api.census.gov/data/2024/acs/acs5/profile"
      (fun _ => (Except.error "timed out" : Except String ℕ)) 6 1).2
    (fun _ => "timed out") (fun j hj => rfl) (by decide)
  rw [h]
  simp only [Prod.mk.injEq]
  refine ⟨by rfl, ?_, trivial⟩
  simp [List.range_succ]
  norm_num

/-- Helper: the square-meters-per-square-mile constant is positive. -/
theorem M2_pos : (0 : ℚ) < M2_PER_SQMI := by norm_num [M2_PER_SQMI]

/-- **C7** — the density derivation yields null exactly in the degenerate
cases: population null/absent, or area null/absent/zero/negative (for a
positive integer area the land area in square miles is automatically
strictly positive); otherwise, for a numeric population of value `q`, it
yields the rounded value of `q / (aland_m2 / 2589988.110336)`. -/
theorem derive_density_null_cases :
    ∀ (pop : Option PyVal) (aland : Option ℤ) (nd : ℤ),
      (derive_density pop aland nd = Except.ok none ↔
        pop = none ∨ aland = none ∨ ∃ a, aland = some a ∧ a ≤ 0) ∧
      (∀ p a q, pop = some p → aland = some a → 0 < a →
        pyFloatOfVal p = Except.ok (PyFloat.finite q) →
        derive_density pop aland nd =
          Except.ok (some (PyVal.floatV (PyFloat.finite
            (pyRound (q / ((a : ℚ) / M2_PER_SQMI)) nd))))) := by
  intro pop aland nd
  constructor
  · cases pop with
    | none => simp [derive_density]
    | some p =>
      cases aland with
      | none => simp [derive_density]
      | some a =>
        simp only [derive_density]
        by_cases ha : a ≠ 0 ∧ 0 < a
        · rw [if_pos ha]
          have hland : 0 < (a : ℚ) / M2_PER_SQMI :=
            div_pos (by exact_mod_cast ha.2) M2_pos
          rw [if_pos hland]
          cases hp : pyFloatOfVal p with
          | ok pf => simp; omega
          | error er => simp; omega
        · rw [if_neg ha]
          simp
          omega
  · intro p a q hp ha hpos hq
    subst hp
    subst ha
    simp only [derive_density]
    rw [if_pos ⟨by omega, hpos⟩]
    have hland : 0 < (a : ℚ) / M2_PER_SQMI :=
      div_pos (by exact_mod_cast hpos) M2_pos
    rw [if_pos hland, hq]
    rfl

/-- Witness for C7: population 1000 on exactly 10^6 square miles of land
(2589988110336 m²) rounds to density 0.0 at one decimal; a negative area
yields null. -/
theorem derive_density_null_cases_witness :
    derive_density (some (PyVal.intV 1000)) (some 2589988110336) 1 =
      Except.ok (some (PyVal.floatV (PyFloat.finite 0))) ∧
    derive_density (some (PyVal.intV 5)) (some (-3)) 1 = Except.ok none := by
  constructor
  · have h := (derive_density_null_cases (some (PyVal.intV 1000))
      (some 2589988110336) 1).2 (PyVal.intV 1000) 2589988110336 1000
      rfl rfl (by norm_num) rfl
    rw [h]
    norm_num [pyRound, roundHalfEven, pow10, M2_PER_SQMI]
  · exact ((derive_density_null_cases (some (PyVal.intV 5)) (some (-3)) 1).1).mpr
      (Or.inr (Or.inr ⟨-3, rfl, by norm_num⟩))

/-- Helper: an element of a dict after `upsert` is the inserted pair or an
original entry. -/
theorem mem_upsert {β : Type} (k : String) (v : β) (kv : String × β) :
    ∀ (l : List (String × β)), kv ∈ upsert l k v → kv = (k, v) ∨ kv ∈ l := by
  intro l
  induction l with
  | nil => simp [upsert]
  | cons hd tl ih =>
    obtain ⟨a, b⟩ := hd
    simp only [upsert]
    by_cases h : a = k
    · rw [if_pos h]
      intro hm
      rcases List.mem_cons.mp hm with h1 | h2
      · exact Or.inl h1
      · exact Or.inr (List.mem_cons_of_mem _ h2)
    · rw [if_neg h]
      intro hm
      rcases List.mem_cons.mp hm with h1 | h2
      · exact Or.inr (h1 ▸ List.mem_cons_self _ _)
      · rcases ih h2 with h3 | h4
        · exact Or.inl h3
        · exact Or.inr (List.mem_cons_of_mem _ h4)

/-- Helper: the keys after `upsert` are the old keys plus the inserted
key. -/
theorem mem_upsert_keys {β : Type} (k : String) (v : β) (x : String) :
    ∀ (l : List (String × β)),
      (x ∈ (upsert l k v).map Prod.fst ↔ x = k ∨ x ∈ l.map Prod.fst) := by
  intro l
  induction l with
  | nil => simp [upsert]
  | cons hd tl ih =>
    obtain ⟨a, b⟩ := hd
    simp only [upsert]
    by_cases h : a = k
    · rw [if_pos h]
      subst h
      simp
    · rw [if_neg h]
      simp only [List.map_cons, List.mem_cons, ih]
      tauto

/-- Helper: `upsert` preserves key uniqueness (the dict invariant). -/
theorem upsert_keys_nodup {β : Type} (k : String) (v : β) :
    ∀ (l : List (String × β)), (l.map Prod.fst).Nodup →
      ((upsert l k v).map Prod.fst).Nodup := by
  intro l
  induction l with
  | nil => simp [upsert]
  | cons hd tl ih =>
    obtain ⟨a, b⟩ := hd
    simp only [upsert]
    by_cases h : a = k
    · rw [if_pos h]
      subst h
      simp
    · rw [if_neg h]
      simp only [List.map_cons, List.nodup_cons, mem_upsert_keys]
      intro hn
      refine ⟨fun hc => ?_, ih hn.2⟩
      rcases hc with hc | hc
      · exact h hc
      · exact hn.1 hc

/-- Helper: the key set after `upsert` is the old key set plus the
inserted key. -/
theorem upsert_keys_toFinset {β : Type} (k : String) (v : β) :
    ∀ (l : List (String × β)),
      ((upsert l k v).map Prod.fst).toFinset =
        insert k (l.map Prod.fst).toFinset := by
  intro l
  ext x
  simp only [List.mem_toFinset, Finset.mem_insert, mem_upsert_keys]

/-- Helper: every key of a record built by the schema loop comes from the
initial record or from a schema field's output key. -/
theorem buildBaseRec_keys (r : Row) :
    ∀ (fields : List SchemaField) (acc rc : List (String × Option PyVal)),
      (fields.foldlM (fun rc0 f =>
        match parse_value (r.cell f.var) (f.vtype.getD "float") with
        | Except.ok v => Except.ok (upsert rc0 f.key v)
        | Except.error e => Except.error e) acc) = Except.ok rc →
      ∀ x, x ∈ rc.map Prod.fst →
        x ∈ acc.map Prod.fst ∨ x ∈ fields.map SchemaField.key := by
  intro fields
  induction fields with
  | nil =>
    intro acc rc h x hx
    simp only [List.foldlM_nil] at h
    cases h
    exact Or.inl hx
  | cons f fs ih =>
    intro acc rc h x hx
    simp only [List.foldlM_cons] at h
    cases hpv : parse_value (r.cell f.var) (f.vtype.getD "float") with
    | ok v =>
      rw [hpv] at h
      simp only [Bind.bind, Except.bind] at h
      rcases ih (upsert acc f.key v) rc h x hx with h1 | h2
      · rcases (mem_upsert_keys f.key v x acc).mp h1 with h3 | h4
        · exact Or.inr (by simp [h3])
        · exact Or.inl h4
      · exact Or.inr (List.mem_cons_of_mem _ h2)
    | error e =>
      rw [hpv] at h
      simp only [Bind.bind, Except.bind] at h
      cases h

/-- **C9** — `schema.derived_fields` is empty when no area-index path is
configured, and contains exactly one descriptor — whose key is the
configured density output key — when it is; and in the disabled case the
built Place Attribute Records carry only schema keys (no derived density
key is added). -/
theorem derived_fields_gate :
    ∀ (areas : Option AreasCfg),
      (computeDensity areas = false →
        derivedFields areas = [] ∧
        (∀ fields dk dr aland geoid r rc,
          buildRecord fields (computeDensity areas) dk dr aland geoid r =
            Except.ok rc →
          ∀ x, x ∈ rc.map Prod.fst → x ∈ fields.map SchemaField.key)) ∧
      (computeDensity areas = true →
        derivedFields areas = [⟨densityKeyOf areas, "float", "people/sqmi",
          "pop_total / (ALAND_m2 / 2589988.110336)"⟩]) := by
  intro areas
  constructor
  · intro h
    refine ⟨by simp [derivedFields, h], ?_⟩
    intro fields dk dr aland geoid r rc hok x hx
    rw [h] at hok
    unfold buildRecord at hok
    cases hbb : buildBaseRec fields r with
    | ok r0 =>
      rw [hbb] at hok
      simp only [Bool.false_eq_true, if_false] at hok
      cases hok
      rcases buildBaseRec_keys r fields [] rc hbb x hx with h1 | h2
      · simp at h1
      · exact h2
    | error e =>
      rw [hbb] at hok
      cases hok
  · intro h
    simp [derivedFields, h]

/-- Witness for C9: with no `areas` block the descriptor list is empty and
a one-field record carries only the schema key; with a configured
area-index path the list is the single density descriptor with the default
output key. -/
theorem derived_fields_gate_witness :
    derivedFields none = [] ∧
    derivedFields (some ⟨some "areaindex.geojson", none, none⟩) =
      [⟨"pop_density_sqmi", "float", "people/sqmi",
        "pop_total / (ALAND_m2 / 2589988.110336)"⟩] ∧
    "name" ∈ ([⟨"NAME", "name", some "string"⟩] : List SchemaField).map
      SchemaField.key := by
  refine ⟨((derived_fields_gate none).1 rfl).1, (derived_fields_gate
    (some ⟨some "areaindex.geojson", none, none⟩)).2 rfl, ?_⟩
  exact ((derived_fields_gate none).1 rfl).2 [⟨"NAME", "name", some "string"⟩]
    "pop_density_sqmi" 1 (fun _ => none) "0644000"
    ⟨"06", "44000", fun _ => some "LA"⟩ [("name", some (PyVal.strV "LA"))]
    rfl "name" (by decide)

/-- Helper: invariant of the per-state row loop.  Starting from an
accumulator with duplicate-free document keys: the rejection counter grows
by the number of rows with a malformed GEOID, `written` grows by the
number of accepted rows, the document keys stay duplicate-free, and the
final key set is the initial one united with the accepted GEOIDs. -/
theorem processRows_go (fields : List SchemaField) (cd : Bool) (dk : String)
    (dr : ℤ) (aland : String → Option ℤ) :
    ∀ (rows : List Row) (acc acc' : StateAcc),
      rows.foldlM (processRow fields cd dk dr aland) acc = Except.ok acc' →
      (acc.out.map Prod.fst).Nodup →
      (acc'.missing_geoid = acc.missing_geoid +
        (rows.filter (fun r => !((pad_geoid r.st r.pl).length == 7))).length ∧
      acc'.written = acc.written + (acceptedGeoids rows).length ∧
      (acc'.out.map Prod.fst).Nodup ∧
      (acc'.out.map Prod.fst).toFinset =
        (acc.out.map Prod.fst).toFinset ∪ (acceptedGeoids rows).toFinset) := by
  intro rows
  induction rows with
  | nil =>
    intro acc acc' h hnd
    simp only [List.foldlM_nil] at h
    cases h
    simp [acceptedGeoids, hnd]
  | cons r rs ih =>
    intro acc acc' h hnd
    simp only [List.foldlM_cons] at h
    by_cases hg : (pad_geoid r.st r.pl).length = 7
    · have hcond : ¬((pad_geoid r.st r.pl).length ≠ 7) := not_not_intro hg
      simp only [processRow, if_neg hcond] at h
      cases hbr : buildRecord fields cd dk dr aland (pad_geoid r.st r.pl) r with
      | ok rc =>
        rw [hbr] at h
        simp only [Bind.bind, Except.bind] at h
        have ihh := ih ⟨upsert acc.out (pad_geoid r.st r.pl) rc,
          acc.written + 1, acc.missing_geoid⟩ acc' h
          (upsert_keys_nodup _ rc acc.out hnd)
        obtain ⟨m1, m2, m3, m4⟩ := ihh
        have hacc : acceptedGeoids (r :: rs) =
            pad_geoid r.st r.pl :: acceptedGeoids rs := by
          simp [acceptedGeoids, List.filter_cons, hg]
        have hflt : ((r :: rs).filter
            (fun r => !((pad_geoid r.st r.pl).length == 7))) =
            rs.filter (fun r => !((pad_geoid r.st r.pl).length == 7)) := by
          simp [List.filter_cons, hg]
        refine ⟨by rw [hflt]; exact m1, ?_, m3, ?_⟩
        · rw [hacc, m2]
          simp only [List.length_cons]
          omega
        · rw [m4, upsert_keys_toFinset, hacc]
          simp only [List.toFinset_cons]
          rw [Finset.insert_union, Finset.union_insert]
      | error e =>
        rw [hbr] at h
        simp only [Bind.bind, Except.bind] at h
        cases h
    · simp only [processRow, if_pos hg] at h
      have ihh := ih ⟨acc.out, acc.written, acc.missing_geoid + 1⟩ acc' h hnd
      obtain ⟨m1, m2, m3, m4⟩ := ihh
      have hacc : acceptedGeoids (r :: rs) = acceptedGeoids rs := by
        simp [acceptedGeoids, List.filter_cons, hg]
      have hflt : ((r :: rs).filter
          (fun r => !((pad_geoid r.st r.pl).length == 7))) =
          r :: rs.filter (fun r => !((pad_geoid r.st r.pl).length == 7)) := by
        simp [List.filter_cons, hg]
      refine ⟨?_, by rw [hacc]; exact m2, m3, by rw [hacc]; exact m4⟩
      rw [hflt, m1]
      simp only [List.length_cons]
      omega

/-- **C1** — after a completed per-state loop, every key of the persisted
per-state document has length exactly 7 and is the GEOID built by
`pad_geoid` from some row's state and place codes; the `missing_geoid`
counter equals the number of rows whose built GEOID has length ≠ 7 (one
increment per such row); and no such rejected GEOID is ever a key of the
document. -/
theorem processRows_geoid_invariant :
    ∀ (fields : List SchemaField) (cd : Bool) (dk : String) (dr : ℤ)
      (aland : String → Option ℤ) (rows : List Row) (acc' : StateAcc),
      processRows fields cd dk dr aland rows = Except.ok acc' →
      (∀ k, k ∈ acc'.out.map Prod.fst →
        (k.length = 7 ∧ ∃ r, r ∈ rows ∧ k = pad_geoid r.st r.pl)) ∧
      acc'.missing_geoid =
        (rows.filter (fun r => !((pad_geoid r.st r.pl).length == 7))).length ∧
      (∀ r, r ∈ rows → (pad_geoid r.st r.pl).length ≠ 7 →
        pad_geoid r.st r.pl ∉ acc'.out.map Prod.fst) := by
  intro fields cd dk dr aland rows acc' h
  obtain ⟨m1, m2, m3, m4⟩ :=
    processRows_go fields cd dk dr aland rows ⟨[], 0, 0⟩ acc' h (by simp)
  have hkeys : ∀ k, k ∈ acc'.out.map Prod.fst → k ∈ acceptedGeoids rows := by
    intro k hk
    have hmem := List.mem_toFinset.mpr hk
    rw [m4] at hmem
    simpa using hmem
  have hlen7 : ∀ k, k ∈ acceptedGeoids rows →
      (k.length = 7 ∧ ∃ r, r ∈ rows ∧ k = pad_geoid r.st r.pl) := by
    intro k hka
    obtain ⟨r, hr, hkr⟩ := List.mem_map.mp hka
    have hrf := List.mem_filter.mp hr
    refine ⟨?_, ⟨r, hrf.1, hkr.symm⟩⟩
    rw [← hkr]
    simpa using hrf.2
  refine ⟨fun k hk => hlen7 k (hkeys k hk), by simpa using m1, ?_⟩
  intro r hr hbad hmem
  exact hbad ((hlen7 _ (hkeys _ hmem)).1)

/-- Witness for C1 on a two-row state (one good row `6`/`44000`, one row
`666`/`44000` whose GEOID pads to 8 characters): the only document key is
the 7-character `0644000`, the rejection counter is 1, and the malformed
GEOID is not a key. -/
theorem processRows_geoid_invariant_witness :
    ("0644000" : String).length = 7 ∧
    (⟨[("0644000", [("name", some (PyVal.strV "LA"))])], 1, 1⟩ :
      StateAcc).missing_geoid = 1 ∧
    pad_geoid "666" "44000" ∉
      ((⟨[("0644000", [("name", some (PyVal.strV "LA"))])], 1, 1⟩ :
        StateAcc).out.map Prod.fst) := by
  have h := processRows_geoid_invariant [⟨"NAME", "name", some "string"⟩] false
    "pop_density_sqmi" 1 (fun _ => none)
    [⟨"6", "44000", fun _ => some "LA"⟩, ⟨"666", "44000", fun _ => some "X"⟩]
    ⟨[("0644000", [("name", some (PyVal.strV "LA"))])], 1, 1⟩ rfl
  refine ⟨(h.1 "0644000" (by decide)).1, h.2.1.trans (by decide), ?_⟩
  exact h.2.2 ⟨"666", "44000", fun _ => some "X"⟩
    (List.mem_cons_of_mem _ (List.mem_cons_self _ _)) (by decide)

/-- **C10** — `written` counts every accepted row, duplicates included;
the persisted document has one entry per distinct accepted GEOID
(last-write-wins), so `written` equals the document size iff the accepted
GEOIDs of the state are pairwise distinct, and strictly exceeds it
otherwise. -/
theorem written_vs_document_size :
    ∀ (fields : List SchemaField) (cd : Bool) (dk : String) (dr : ℤ)
      (aland : String → Option ℤ) (rows : List Row) (acc' : StateAcc),
      processRows fields cd dk dr aland rows = Except.ok acc' →
      acc'.written = (acceptedGeoids rows).length ∧
      acc'.out.length = (acceptedGeoids rows).dedup.length ∧
      (acc'.written = acc'.out.length ↔ (acceptedGeoids rows).Nodup) ∧
      (¬(acceptedGeoids rows).Nodup → acc'.out.length < acc'.written) := by
  intro fields cd dk dr aland rows acc' h
  obtain ⟨m1, m2, m3, m4⟩ :=
    processRows_go fields cd dk dr aland rows ⟨[], 0, 0⟩ acc' h (by simp)
  have hw : acc'.written = (acceptedGeoids rows).length := by simpa using m2
  have hlen : acc'.out.length = (acceptedGeoids rows).dedup.length := by
    have h1 : acc'.out.length = (acc'.out.map Prod.fst).length :=
      (List.length_map _ _).symm
    have h2 : (acc'.out.map Prod.fst).length =
        (acc'.out.map Prod.fst).toFinset.card :=
      (List.toFinset_card_of_nodup m3).symm
    rw [h1, h2, m4]
    simp [List.card_toFinset]
  have hdle : (acceptedGeoids rows).dedup.length ≤
      (acceptedGeoids rows).length := (List.dedup_sublist _).length_le
  refine ⟨hw, hlen, ⟨?_, ?_⟩, ?_⟩
  · intro heq
    have hll : (acceptedGeoids rows).dedup.length =
        (acceptedGeoids rows).length := by omega
    exact List.dedup_eq_self.mp ((List.dedup_sublist _).eq_of_length hll)
  · intro hnd
    rw [hw, hlen, List.dedup_eq_self.mpr hnd]
  · intro hnnd
    have hne : (acceptedGeoids rows).dedup.length ≠
        (acceptedGeoids rows).length := by
      intro hh
      exact hnnd (List.dedup_eq_self.mp ((List.dedup_sublist _).eq_of_length hh))
    omega

/-- Witness for C10 on a state with two accepted rows sharing GEOID
`0644000` (plus one rejected row): `written` is 2, the document has 1
entry, and the size is strictly below the counter. -/
theorem written_vs_document_size_witness :
    (⟨[("0644000", [("name", some (PyVal.strV "B"))])], 2, 1⟩ :
      StateAcc).written = 2 ∧
    (⟨[("0644000", [("name", some (PyVal.strV "B"))])], 2, 1⟩ :
      StateAcc).out.length <
    (⟨[("0644000", [("name", some (PyVal.strV "B"))])], 2, 1⟩ :
      StateAcc).written := by
  have h := written_vs_document_size [⟨"NAME", "name", some "string"⟩] false
    "pop_density_sqmi" 1 (fun _ => none)
    [⟨"6", "44000", fun _ => some "A"⟩, ⟨"06", "44000", fun _ => some "B"⟩,
     ⟨"666", "44000", fun _ => some "X"⟩]
    ⟨[("0644000", [("name", some (PyVal.strV "B"))])], 2, 1⟩ rfl
  exact ⟨h.1.trans (by decide), h.2.2.2 (by decide)⟩

/-- Helper: every entry of the loaded area index was contributed by some
feature of the input (no entry appears out of thin air, and skipped
features contribute nothing). -/
theorem load_aland_entries :
    ∀ (features : List Feature) (l m : List (String × ℤ)),
      (features.foldlM (fun out f =>
        match loadFeature f with
        | Except.ok none => Except.ok out
        | Except.ok (some (g, n)) => Except.ok (upsert out g n)
        | Except.error e => Except.error e) l) = Except.ok m →
      ∀ kv, kv ∈ m →
        kv ∈ l ∨ ∃ f, f ∈ features ∧ loadFeature f = Except.ok (some kv) := by
  intro features
  induction features with
  | nil =>
    intro l m h kv hkv
    simp only [List.foldlM_nil] at h
    cases h
    exact Or.inl hkv
  | cons f fs ih =>
    intro l m h kv hkv
    simp only [List.foldlM_cons] at h
    cases hlf : loadFeature f with
    | ok o =>
      cases o with
      | none =>
        rw [hlf] at h
        simp only [Bind.bind, Except.bind] at h
        rcases ih l m h kv hkv with h1 | ⟨f', hf', hl'⟩
        · exact Or.inl h1
        · exact Or.inr ⟨f', List.mem_cons_of_mem _ hf', hl'⟩
      | some gn =>
        obtain ⟨g, n⟩ := gn
        rw [hlf] at h
        simp only [Bind.bind, Except.bind] at h
        rcases ih (upsert l g n) m h kv hkv with h1 | ⟨f', hf', hl'⟩
        · rcases mem_upsert g n kv l h1 with h2 | h3
          · exact Or.inr ⟨f, List.mem_cons_self _ _, by rw [hlf, h2]⟩
          · exact Or.inl h3
        · exact Or.inr ⟨f', List.mem_cons_of_mem _ hf', hl'⟩
    | error e =>
      rw [hlf] at h
      simp only [Bind.bind, Except.bind] at h
      cases h

/-- **C8** — the area-index loader produces no entry for a feature with a
missing or non-7-character GEOID or an absent ALAND (and never a partial
record); a feature whose ALAND is present but unparseable — a string on
which both `int(s)` and the `int(float(str(s)))` fallback fail, or a
`nan` float — is likewise skipped with no entry; an integer ALAND, a
numeric-string ALAND, and a float-string ALAND such as `"4500000.0"` all
coerce to the integer number of square meters under the feature's GEOID;
and every entry of the loaded index comes from some feature that produced
exactly that entry. -/
theorem load_feature_spec :
    (∀ f : Feature, (featureGeoid f).length ≠ 7 →
      loadFeature f = Except.ok none) ∧
    (∀ f : Feature, f.alandProp = none → loadFeature f = Except.ok none) ∧
    (∀ (f : Feature) (n : ℤ), (featureGeoid f).length = 7 →
      f.alandProp = some (PyVal.intV n) →
      loadFeature f = Except.ok (some (featureGeoid f, n))) ∧
    (∀ (f : Feature) (s : String) (n : ℤ), (featureGeoid f).length = 7 →
      f.alandProp = some (PyVal.strV s) → pyIntOfString s = some n →
      loadFeature f = Except.ok (some (featureGeoid f, n))) ∧
    (∀ (f : Feature) (s : String) (q : ℚ), (featureGeoid f).length = 7 →
      f.alandProp = some (PyVal.strV s) → pyIntOfString s = none →
      pyFloat (pystrip s) = some (PyFloat.finite q) →
      loadFeature f = Except.ok (some (featureGeoid f, ratTrunc q))) ∧
    (∀ (f : Feature) (s : String), f.alandProp = some (PyVal.strV s) →
      pyIntOfString s = none →
      (∀ q : ℚ, pyFloat (pystrip s) ≠ some (PyFloat.finite q)) →
      loadFeature f = Except.ok none) ∧
    (∀ f : Feature, f.alandProp = some (PyVal.floatV PyFloat.nan) →
      loadFeature f = Except.ok none) ∧
    (∀ (features : List Feature) (m : List (String × ℤ)),
      load_aland_by_geoid features = Except.ok m →
      ∀ kv, kv ∈ m →
        ∃ f, f ∈ features ∧ loadFeature f = Except.ok (some kv)) := by
  refine ⟨?_, ?_, ?_, ?_, ?_, ?_, ?_, ?_⟩
  · intro f h
    cases ha : f.alandProp with
    | none => simp [loadFeature, ha]
    | some av => simp [loadFeature, ha, h]
  · intro f h
    simp [loadFeature, h]
  · intro f n h7 ha
    simp only [loadFeature, ha, if_neg (not_not_intro h7)]
    rfl
  · intro f s n h7 ha hs
    simp only [loadFeature, ha, if_neg (not_not_intro h7)]
    simp only [pyInt, hs]
  · intro f s q h7 ha hs hq
    simp only [loadFeature, ha, if_neg (not_not_intro h7)]
    simp only [pyInt, hs, loadFeature.loadFallback, pyStr, hq]
    rfl
  · intro f s ha hs hq
    simp only [loadFeature, ha]
    by_cases hc : (featureGeoid f).length ≠ 7
    · rw [if_pos hc]
    · rw [if_neg hc]
      simp only [pyInt, hs, loadFeature.loadFallback, pyStr]
      cases hpf : pyFloat (pystrip s) with
      | none => rfl
      | some fl =>
        cases fl with
        | finite q => exact absurd hpf (hq q)
        | inf => rfl
        | neginf => rfl
        | nan => rfl
  · intro f ha
    simp only [loadFeature, ha]
    by_cases hc : (featureGeoid f).length ≠ 7
    · rw [if_pos hc]
    · rw [if_neg hc]
      rfl
  · intro features m h kv hkv
    rcases load_aland_entries features [] m h kv hkv with h1 | h2
    · simp at h1
    · exact h2

/-- Witness for C8: a feature with GEOID `0644000` and ALAND given as the
string `"4500000.0"` loads as integer 4500000; a feature whose GEOID has
length 6 produces no entry; and a feature with a well-formed GEOID but the
unparseable ALAND string `"abc"` produces no entry. -/
theorem load_feature_spec_witness :
    loadFeature ⟨some (PyVal.strV "0644000"), some (PyVal.strV "4500000.0")⟩ =
      Except.ok (some ("0644000", 4500000)) ∧
    loadFeature ⟨some (PyVal.strV "064400"), some (PyVal.intV 5)⟩ =
      Except.ok none ∧
    loadFeature ⟨some (PyVal.strV "0644000"), some (PyVal.strV "abc")⟩ =
      Except.ok none := by
  refine ⟨?_, ?_, ?_⟩
  · have h := load_feature_spec.2.2.2.2.1
      ⟨some (PyVal.strV "0644000"), some (PyVal.strV "4500000.0")⟩
      "4500000.0" (ratOfSci 45000000 (-1)) (by decide) rfl (by decide) rfl
    rw [h]
    have ht : ratTrunc (ratOfSci 45000000 (-1)) = 4500000 := by
      norm_num [ratTrunc, ratOfSci, pow10]
    rw [ht]
    rfl
  · exact load_feature_spec.1 ⟨some (PyVal.strV "064400"), some (PyVal.intV 5)⟩
      (by decide)
  · exact load_feature_spec.2.2.2.2.2.1
      ⟨some (PyVal.strV "0644000"), some (PyVal.strV "abc")⟩ "abc" rfl
      (by decide)
      (fun q => by simp [show pyFloat (pystrip "abc") = none from rfl])

/-- Helper: inserting into a key-sorted list permutes consing. -/
theorem insortKV_perm (p : String × String) :
    ∀ (l : List (String × String)), (insortKV p l).Perm (p :: l) := by
  intro l
  induction l with
  | nil => simp [insortKV]
  | cons q qs ih =>
    simp only [insortKV]
    by_cases h : p.1 ≤ q.1
    · rw [if_pos h]
    · rw [if_neg h]
      exact ((ih.cons q).trans (List.Perm.swap p q qs))

/-- Helper: sorting the rendered entries permutes them. -/
theorem sortKV_perm :
    ∀ (l : List (String × String)), (sortKV l).Perm l := by
  intro l
  induction l with
  | nil => simp [sortKV]
  | cons p ps ih =>
    simp only [sortKV]
    exact (insortKV_perm p (sortKV ps)).trans (ih.cons p)

/-- Helper: insertion keeps the list sorted by key. -/
theorem insortKV_sorted (p : String × String) :
    ∀ (l : List (String × String)),
      List.Sorted (fun a b : String × String => a.1 ≤ b.1) l →
      List.Sorted (fun a b : String × String => a.1 ≤ b.1) (insortKV p l) := by
  intro l
  induction l with
  | nil => intro _; simp [insortKV]
  | cons q qs ih =>
    intro hs
    simp only [insortKV]
    by_cases h : p.1 ≤ q.1
    · rw [if_pos h]
      refine List.Pairwise.cons ?_ hs
      intro b hb
      rcases List.mem_cons.mp hb with hb | hb
      · exact hb ▸ h
      · exact le_trans h (List.rel_of_pairwise_cons hs hb)
    · rw [if_neg h]
      have hq := le_of_not_le h
      refine List.Pairwise.cons ?_ (ih (List.Pairwise.of_cons hs))
      intro b hb
      rcases List.mem_cons.mp ((insortKV_perm p qs).mem_iff.mp hb) with hb' | hb'
      · exact hb' ▸ hq
      · exact List.rel_of_pairwise_cons hs hb'

/-- Helper: `sortKV` sorts by key. -/
theorem sortKV_sorted :
    ∀ (l : List (String × String)),
      List.Sorted (fun a b : String × String => a.1 ≤ b.1) (sortKV l) := by
  intro l
  induction l with
  | nil => simp [sortKV]
  | cons p ps ih =>
    simp only [sortKV]
    exact insortKV_sorted p (sortKV ps) ih

/-- Helper: on entry lists with duplicate-free keys, `sortKV` is a
canonical form — any two permutations sort to the same list. -/
theorem sortKV_canonical (l₁ l₂ : List (String × String))
    (hperm : l₁.Perm l₂) (hnd : (l₁.map Prod.fst).Nodup) :
    sortKV l₁ = sortKV l₂ := by
  haveI : IsAntisymm (String × String) (fun a b => a.1 < b.1) :=
    ⟨fun a b h1 h2 => absurd h2 (lt_asymm h1)⟩
  have hp : (sortKV l₁).Perm (sortKV l₂) :=
    (sortKV_perm l₁).trans (hperm.trans (sortKV_perm l₂).symm)
  have strict : ∀ (l : List (String × String)),
      (l.map Prod.fst).Nodup →
      List.Sorted (fun a b : String × String => a.1 < b.1) (sortKV l) := by
    intro l hnd'
    have hnds : ((sortKV l).map Prod.fst).Nodup :=
      (((sortKV_perm l).map Prod.fst).nodup_iff).mpr hnd'
    have hne : List.Pairwise (fun a b : String × String => a.1 ≠ b.1)
        (sortKV l) := List.pairwise_map.mp hnds
    exact ((sortKV_sorted l).and hne).imp
      (fun hab => lt_of_le_of_ne hab.1 hab.2)
  have hnd₂ : (l₂.map Prod.fst).Nodup :=
    ((hperm.map Prod.fst).nodup_iff).mp hnd
  exact List.eq_of_perm_of_sorted hp (strict l₁ hnd) (strict l₂ hnd₂)

/-- Helper: rendering object entries maps the serializer over the values,
keeping keys and order. -/
theorem serObj_eq_map :
    ∀ (kvs : List (String × J)),
      serObj kvs = kvs.map (fun kv => (kv.1, serialize kv.2)) := by
  intro kvs
  induction kvs with
  | nil => simp [serObj]
  | cons kv rest ih =>
    obtain ⟨k, v⟩ := kv
    simp [serObj, ih]

/-- **C2** — the serialization policy of `write_json` (sorted keys,
compact separators) is deterministic: the bytes of a serialized object
depend only on its key-value content, not on dict insertion order, so two
runs producing the same per-state documents and manifest content (up to
the timestamp field) write byte-identical files. -/
theorem serialize_insertion_order_independent :
    ∀ (kvs₁ kvs₂ : List (String × J)), kvs₁.Perm kvs₂ →
      (kvs₁.map Prod.fst).Nodup →
      serialize (J.obj kvs₁) = serialize (J.obj kvs₂) := by
  intro kvs₁ kvs₂ hperm hnd
  suffices h : sortKV (serObj kvs₁) = sortKV (serObj kvs₂) by
    simp [serialize, h]
  apply sortKV_canonical
  · rw [serObj_eq_map, serObj_eq_map]
    exact hperm.map _
  · rw [serObj_eq_map, List.map_map]
    exact hnd

/-- Witness for C2: the same two-entry object serializes identically from
either insertion order. -/
theorem serialize_insertion_order_independent_witness :
    serialize (J.obj [("b", J.int 1), ("a", J.str "x")]) =
      serialize (J.obj [("a", J.str "x"), ("b", J.int 1)]) :=
  serialize_insertion_order_independent
    [("b", J.int 1), ("a", J.str "x")] [("a", J.str "x"), ("b", J.int 1)]
    (List.Perm.swap ("a", J.str "x") ("b", J.int 1) []) (by decide)
